import Mathlib

/-!
Shallow embedding of the ml-learn asynchronous classification pipeline:
shared schemas (`shared/schemas.py`), the gateway's bounded result cache and
HTTP handlers (`services/gateway/app.py`), the Kafka connection bootstrap
(`shared/kafka_utils.py`), and the inference worker loop
(`services/ml_worker/worker.py`).

Numeric `float` fields (score, inference_time_ms) are modelled as rationals:
they are only passed through, never computed with.  Wall-clock fields
(`created_at` timestamps) are omitted from the embedded records, since no
verified property mentions them.  Effectful operations (Kafka publish,
consume, commit) are modelled by explicit action traces; the outcome of each
external effect (decode success, classification success, publish success) is
an input to the embedded step function.
-/

namespace MlLearn

/-! ## shared/schemas.py -/

/-- TaskStatus enum from `shared/schemas.py`. -/
inductive TaskStatus where
  | pending
  | processing
  | completed
  | failed
deriving DecidableEq, Repr

/-- PredictionRequest from `shared/schemas.py` (the `created_at` timestamp is
omitted; `request_id` defaults to a fresh UUID, which the embedding passes in
explicitly where it matters). -/
structure PredictionRequest where
  request_id : String
  text : String
deriving DecidableEq, Repr

/-- Pydantic validation on `PredictionRequest.text`:
`Field(..., min_length=1, max_length=5000)` (codepoint length). -/
def validText (text : String) : Bool :=
  1 ≤ text.length && text.length ≤ 5000

/-- PredictionResult from `shared/schemas.py` (`created_at` omitted). -/
structure PredictionResult where
  request_id : String
  label : String
  score : ℚ
  model_name : String
  inference_time_ms : ℚ
  status : TaskStatus
deriving DecidableEq, Repr

/-- HealthResponse from `shared/schemas.py`. -/
structure HealthResponse where
  service : String
  status : String
  version : String
  kafka_connected : Bool
deriving DecidableEq, Repr

/-! ## The gateway result store (`services/gateway/app.py`)

`results_store` is a Python `OrderedDict[str, dict]`; we embed it as an
association list in insertion order, oldest first.  The three `OrderedDict`
operations that `_store_result` and the read path use are embedded
separately and composed exactly as the source composes them. -/

/-- The store: association list, front = oldest entry. -/
abbrev ResultStore := List (String × PredictionResult)

/-- Python `d[k] = v` on an `OrderedDict`: update the value in place if the
key is present (keeping its position), otherwise append at the end. -/
def odSet : ResultStore → String → PredictionResult → ResultStore
  | [], k, v => [(k, v)]
  | (k', v') :: rest, k, v =>
    if k' = k then (k, v) :: rest else (k', v') :: odSet rest k v

/-- Python `d.move_to_end(k)`: move the entry for `k` to the
most-recently-written end. -/
def odMoveToEnd (store : ResultStore) (k : String) : ResultStore :=
  store.filter (fun p => p.1 ≠ k) ++ store.filter (fun p => p.1 = k)

/-- Python `d.get(k)`: value of the first entry with key `k`, if any. -/
def odGet (store : ResultStore) (k : String) : Option PredictionResult :=
  (store.find? (fun p => p.1 = k)).map Prod.snd

/-- The `while len(results_store) > MAX_RESULTS: results_store.popitem(last=False)`
loop: evict oldest entries until the size is within the capacity. -/
def evictOldest (cap : Nat) : ResultStore → ResultStore
  | [] => []
  | e :: rest => if cap < (e :: rest).length then evictOldest cap rest else e :: rest

/-- Embeds `_store_result` from `services/gateway/app.py` with the capacity
`MAX_RESULTS` as a parameter `cap`:
assignment, then `move_to_end`, then the eviction loop. -/
def _store_result (cap : Nat) (store : ResultStore) (request_id : String)
    (result : PredictionResult) : ResultStore :=
  evictOldest cap (odMoveToEnd (odSet store request_id result) request_id)

/-- The gateway's hard-coded capacity `MAX_RESULTS = 10_000`. -/
def MAX_RESULTS : Nat := 10000

/-- A sequence of `put` calls applied in order, starting from a given store. -/
def putSeq (cap : Nat) (store : ResultStore) (ps : List (String × PredictionResult)) :
    ResultStore :=
  ps.foldl (fun s p => _store_result cap s p.1 p.2) store

/-! ## Gateway read path and health handler (`services/gateway/app.py`) -/

/-- Response of `GET /predict/{request_id}`: either the cached result dict or
the pending placeholder `\x7b"request_id": id, "status": "pending"\x7d`. -/
inductive FetchResponse where
  | found (result : PredictionResult)
  | pendingFor (request_id : String) (status : TaskStatus)
deriving DecidableEq, Repr

/-- Embeds `get_prediction_result` from `services/gateway/app.py`. -/
def get_prediction_result (store : ResultStore) (request_id : String) : FetchResponse :=
  match odGet store request_id with
  | none => .pendingFor request_id TaskStatus.pending
  | some result => .found result

/-- Embeds `health_check` from `services/gateway/app.py`: `kafka_ok` is
`producer is not None`. -/
def health_check (service version : String) (producer : Option Unit) : HealthResponse :=
  let kafka_ok := producer.isSome
  { service := service
    status := if kafka_ok then "healthy" else "degraded"
    version := version
    kafka_connected := kafka_ok }

/-! ## shared/kafka_utils.py — connection bootstrap with retry

`create_producer` and `create_consumer` share the same retry shape:
`for attempt in range(1, max_retries + 1): try start; return handle;
except exc: if attempt == max_retries: raise; sleep(retry_delay)`, followed
by an unreachable `raise RuntimeError`.  The outcome of the `start()` call at
each attempt number is an input `outcome : Nat → Except ConnError Handle`
(attempt numbers are 1-based, as in the Python `range`).  The embedding also
returns the list of attempt numbers actually tried, so "returns after exactly
K+1 attempts" is statable. -/

/-- Error raised by a failed `start()` call (aiokafka connection error). -/
structure ConnError where
  msg : String
deriving DecidableEq, Repr

/-- Abstract producer/consumer handle. -/
structure Handle where
  id : Nat
deriving DecidableEq, Repr

/-- What the bootstrap can raise: the re-raised connection error from the
final attempt, or the unreachable `RuntimeError` fall-through after the loop. -/
inductive BootstrapError where
  | connError (e : ConnError)
  | runtimeError
deriving DecidableEq, Repr

/-- The retry `for` loop over the remaining attempt numbers.  Returns the
attempts actually made together with the result. -/
def connectLoop (outcome : Nat → Except ConnError Handle) (max_retries : Nat) :
    List Nat → List Nat × Except BootstrapError Handle
  | [] => ([], .error .runtimeError)
  | a :: rest =>
    match outcome a with
    | .ok h => ([a], .ok h)
    | .error e =>
      if a = max_retries then ([a], .error (.connError e))
      else
        let r := connectLoop outcome max_retries rest
        (a :: r.1, r.2)

/-- Embeds `create_producer` from `shared/kafka_utils.py`: retry loop over
attempts `1 .. max_retries`. -/
def create_producer (outcome : Nat → Except ConnError Handle) (max_retries : Nat) :
    List Nat × Except BootstrapError Handle :=
  connectLoop outcome max_retries (List.range' 1 max_retries)

/-- Embeds `create_consumer` from `shared/kafka_utils.py`: identical retry
logic to `create_producer`. -/
def create_consumer (outcome : Nat → Except ConnError Handle) (max_retries : Nat) :
    List Nat × Except BootstrapError Handle :=
  connectLoop outcome max_retries (List.range' 1 max_retries)

/-! ## services/ml_worker/worker.py — the inference worker loop

Per consumed message, the effect outcomes are inputs: the result of
`PredictionRequest(**msg.value)` (decode), the result of
`model.predict(request.text)` (classification), and whether each
`produce_message` call succeeds.  The step function returns the trace of bus
actions the code performs for that message.  `consumer.commit()` is recorded
as an action (the code's commit call); commit-call failures are bus-level,
outside every claim, and are not modelled. -/

/-- Topic name constants from `shared/kafka_utils.py`. -/
def TOPIC_PREDICTION_REQUESTS : String := "ml.prediction.requests"

/-- Topic name constant for the results topic. -/
def TOPIC_PREDICTION_RESULTS : String := "ml.prediction.results"

/-- Output of `model.predict`: label, score, model_name, inference_time_ms. -/
structure Prediction where
  label : String
  score : ℚ
  model_name : String
  inference_time_ms : ℚ
deriving DecidableEq, Repr

/-- Bus actions the worker performs for one message.  A `publishAttempt`
records a `produce_message` call with its topic, partition key, payload and
whether the send succeeded. -/
inductive WorkerAction where
  | publishAttempt (topic : String) (key : String) (value : PredictionResult) (ok : Bool)
  | commit
deriving DecidableEq, Repr

/-- Per-message effect outcomes for one consumed request message. -/
structure RequestMsgOutcome where
  decoded : Except String PredictionRequest
  predicted : Except String Prediction
  successPublishOk : Bool
  errorPublishOk : Bool

/-- The error result built in the worker's `except` branch:
`PredictionResult(request_id=request_id, label="ERROR", score=0.0,
model_name=settings.model_name, inference_time_ms=0.0, status=FAILED)`. -/
def errorResult (model_name request_id : String) : PredictionResult :=
  { request_id := request_id
    label := "ERROR"
    score := 0
    model_name := model_name
    inference_time_ms := 0
    status := TaskStatus.failed }

/-- The worker's `except` branch: publish the error result keyed by the
current `request_id` (that publish may itself fail and is swallowed), then
commit unconditionally. -/
def errorBranch (model_name request_id : String) (errorPublishOk : Bool) :
    List WorkerAction :=
  [.publishAttempt TOPIC_PREDICTION_RESULTS request_id
      (errorResult model_name request_id) errorPublishOk,
   .commit]

/-- The completed result built on the success path of the worker loop. -/
def completedResult (request : PredictionRequest) (p : Prediction) : PredictionResult :=
  { request_id := request.request_id
    label := p.label
    score := p.score
    model_name := p.model_name
    inference_time_ms := p.inference_time_ms
    status := TaskStatus.completed }

/-- Embeds the body of the `async for msg in consumer` loop in `run_worker`
(`services/ml_worker/worker.py`): `request_id` starts as `"unknown"`; decode,
predict and the success publish each jump to the `except` branch on failure,
with `request_id` holding whatever was recovered by then; the success path
commits after a successful publish. -/
def processMessage (model_name : String) (m : RequestMsgOutcome) : List WorkerAction :=
  match m.decoded with
  | .error _ => errorBranch model_name "unknown" m.errorPublishOk
  | .ok request =>
    match m.predicted with
    | .error _ => errorBranch model_name request.request_id m.errorPublishOk
    | .ok p =>
      if m.successPublishOk then
        [.publishAttempt TOPIC_PREDICTION_RESULTS request.request_id
            (completedResult request p) true,
         .commit]
      else
        .publishAttempt TOPIC_PREDICTION_RESULTS request.request_id
            (completedResult request p) false ::
          errorBranch model_name request.request_id m.errorPublishOk

/-- The worker loop over a finite message sequence: one trace per message. -/
def runWorkerLoop (model_name : String) (msgs : List RequestMsgOutcome) :
    List (List WorkerAction) :=
  msgs.map (processMessage model_name)

/-- The identifier the worker's except branch uses for a message: the decoded
`request_id` when decode succeeded, else the `"unknown"` placeholder. -/
def recoveredId (m : RequestMsgOutcome) : String :=
  match m.decoded with
  | .ok request => request.request_id
  | .error _ => "unknown"

/-- Number of `commit` actions in a worker trace. -/
def commitCount (t : List WorkerAction) : Nat :=
  t.countP (fun a => a = WorkerAction.commit)

/-! ## services/gateway/app.py — the result ingestor loop

Per consumed result message: decode via `PredictionResult(**msg.value)`,
`_store_result`, then `consumer.commit()`, all inside one `try`; any failure
is logged and the message skipped without a commit.  The possibility of the
cache mutation raising (the spec's CacheError) is an input `putOk`. -/

/-- Per-message effect outcomes for one consumed result message. -/
structure ResultMsgOutcome where
  decoded : Except String PredictionResult
  putOk : Bool

/-- Actions of the ingestor for one message. -/
inductive IngestAction where
  | stored (request_id : String) (result : PredictionResult)
  | commit
  | skipped
deriving DecidableEq, Repr

/-- Embeds the body of the `async for msg in consumer` loop in
`_consume_results` (`services/gateway/app.py`): on decode failure or a
failing cache mutation, the `except` branch logs and skips (no commit, store
unchanged); otherwise store the result keyed by its `request_id`, then
commit. -/
def ingestStep (cap : Nat) (store : ResultStore) (m : ResultMsgOutcome) :
    ResultStore × List IngestAction :=
  match m.decoded with
  | .error _ => (store, [.skipped])
  | .ok result =>
    if m.putOk then
      (_store_result cap store result.request_id result,
       [.stored result.request_id result, .commit])
    else
      (store, [.skipped])

/-- The ingestor loop over a finite message sequence: threads the store and
collects one action trace per message. -/
def ingestLoop (cap : Nat) (store : ResultStore) :
    List ResultMsgOutcome → ResultStore × List (List IngestAction)
  | [] => (store, [])
  | m :: rest =>
    let s := ingestStep cap store m
    let r := ingestLoop cap s.1 rest
    (r.1, s.2 :: r.2)

/-! ## services/gateway/app.py — submit handler -/

/-- Body of `POST /predict`: the optional caller-supplied identifier and the
text (pydantic fills `request_id` with a fresh UUID when absent). -/
structure SubmitInput where
  request_id : Option String
  text : String
deriving DecidableEq, Repr

/-- Outcome of a `POST /predict` call as seen by the caller. -/
inductive SubmitResponse where
  | accepted (request_id : String) (status : TaskStatus)
  | validationError
  | serviceUnavailable
deriving DecidableEq, Repr

/-- Whether a submit response carries an identifier (the 202 accepted body). -/
def isAccepted : SubmitResponse → Bool
  | .accepted _ _ => true
  | .validationError => false
  | .serviceUnavailable => false

/-- A `produce_message` attempt on the requests topic. -/
structure PublishAttempt where
  topic : String
  key : String
  value : PredictionRequest
  ok : Bool
deriving DecidableEq, Repr

/-- Pydantic parsing of the request body, which FastAPI runs before the
handler: on a text-length violation the call fails with 422 and the handler
never runs; otherwise `request_id` defaults to a fresh UUID (`freshId`). -/
def parseRequest (freshId : String) (inp : SubmitInput) : Option PredictionRequest :=
  if validText inp.text then
    some { request_id := inp.request_id.getD freshId, text := inp.text }
  else none

/-- Embeds `submit_prediction` from `services/gateway/app.py` together with
the pydantic validation step: `producerUp` is `producer is not None`,
`publishOk` is whether `produce_message` succeeds.  Returns the response and
the list of publish attempts made. -/
def submit_prediction (producerUp publishOk : Bool) (freshId : String)
    (inp : SubmitInput) : SubmitResponse × List PublishAttempt :=
  match parseRequest freshId inp with
  | none => (.validationError, [])
  | some request =>
    if producerUp then
      if publishOk then
        (.accepted request.request_id TaskStatus.pending,
         [⟨TOPIC_PREDICTION_REQUESTS, request.request_id, request, true⟩])
      else
        (.serviceUnavailable,
         [⟨TOPIC_PREDICTION_REQUESTS, request.request_id, request, false⟩])
    else
      (.serviceUnavailable, [])

/-! ## Concrete sample inputs used to instantiate the verified properties -/

/-- A sample completed result. -/
def sampleResult : PredictionResult :=
  { request_id := "id-1", label := "POSITIVE", score := 99 / 100
    model_name := "distilbert", inference_time_ms := 12, status := TaskStatus.completed }

/-- A second sample result with a different key. -/
def sampleResultB : PredictionResult :=
  { request_id := "id-2", label := "NEGATIVE", score := 3 / 4
    model_name := "distilbert", inference_time_ms := 8, status := TaskStatus.completed }

/-- A connect-outcome function that fails on attempt 1 and succeeds from
attempt 2 on. -/
def outcomeFailThenOk : Nat → Except ConnError Handle :=
  fun n => if n ≤ 1 then .error ⟨"connection refused"⟩ else .ok ⟨7⟩

/-- A connect-outcome function that fails on every attempt. -/
def outcomeAlwaysFail : Nat → Except ConnError Handle :=
  fun _ => .error ⟨"connection refused"⟩

/-- A request message whose classification fails (decode succeeded), and
whose error-result publish also fails. -/
def msgClassifyFail : RequestMsgOutcome :=
  { decoded := .ok { request_id := "req-1", text := "great product" }
    predicted := .error "model raised"
    successPublishOk := true
    errorPublishOk := false }

/-- A request message whose decode fails before the identifier is known. -/
def msgDecodeFail : RequestMsgOutcome :=
  { decoded := .error "bad payload"
    predicted := .ok { label := "POSITIVE", score := 99 / 100
                       model_name := "distilbert", inference_time_ms := 12 }
    successPublishOk := true
    errorPublishOk := true }

/-- A result message that decodes and stores fine. -/
def resultMsgOk : ResultMsgOutcome :=
  { decoded := .ok sampleResult, putOk := true }

/-- A result message whose decode fails. -/
def resultMsgBad : ResultMsgOutcome :=
  { decoded := .error "bad payload", putOk := true }

/-! ## Cache lemmas -/

/-- The eviction loop drops the oldest entries: it is `List.drop` down to the
capacity. -/
theorem evictOldest_eq_drop (cap : Nat) (l : ResultStore) :
    evictOldest cap l = l.drop (l.length - cap) := by
  induction l with
  | nil => simp [evictOldest]
  | cons e rest ih =>
    by_cases h : cap < (e :: rest).length
    · have hlen : (e :: rest).length - cap = (rest.length - cap) + 1 := by
        simp only [List.length_cons] at h ⊢
        omega
      simp only [evictOldest, if_pos h, ih, hlen, List.drop_succ_cons]
    · have hc : ¬ cap < rest.length + 1 := by simpa using h
      have hlen : rest.length + 1 - cap = 0 := by omega
      simp [evictOldest, hc, hlen]

/-- After eviction the store fits in the capacity. -/
theorem evictOldest_length_le (cap : Nat) (l : ResultStore) :
    (evictOldest cap l).length ≤ cap := by
  rw [evictOldest_eq_drop, List.length_drop]
  omega

/-- A key that no entry of the store carries leaves `filter (≠ k)` as the
identity. -/
theorem filter_ne_of_fresh (s : ResultStore) (k : String)
    (h : ∀ p ∈ s, p.1 ≠ k) : s.filter (fun p => p.1 ≠ k) = s := by
  refine List.filter_eq_self.mpr ?_
  intro p hp
  simpa using h p hp

/-- A key that no entry of the store carries makes `filter (= k)` empty. -/
theorem filter_eq_of_fresh (s : ResultStore) (k : String)
    (h : ∀ p ∈ s, p.1 ≠ k) : s.filter (fun p => p.1 = k) = [] := by
  refine List.filter_eq_nil_iff.mpr ?_
  intro p hp
  simpa using h p hp

/-- On a store with duplicate-free keys, assignment followed by
`move_to_end` keeps every other entry in order and puts the fresh `(k, v)`
entry at the most-recently-written end. -/
theorem odSet_moveToEnd (s : ResultStore) (k : String) (v : PredictionResult)
    (h : (s.map Prod.fst).Nodup) :
    odMoveToEnd (odSet s k v) k = s.filter (fun p => p.1 ≠ k) ++ [(k, v)] := by
  induction s with
  | nil =>
    simp [odSet, odMoveToEnd]
  | cons e rest ih =>
    simp only [List.map_cons, List.nodup_cons] at h
    obtain ⟨hk, hrest⟩ := h
    by_cases he : e.1 = k
    · have hfresh : ∀ p ∈ rest, p.1 ≠ k := by
        intro p hp hpk
        exact hk (by rw [← he] at hpk; exact hpk ▸ List.mem_map_of_mem Prod.fst hp)
      have hne : rest.filter (fun p => p.1 ≠ k) = rest := filter_ne_of_fresh rest k hfresh
      have heq : rest.filter (fun p => p.1 = k) = [] := filter_eq_of_fresh rest k hfresh
      simp [odSet, odMoveToEnd, he, List.filter_cons, hne, heq]
    · have ihe := ih hrest
      simp only [odMoveToEnd, decide_not] at ihe
      simp [odSet, odMoveToEnd, he, List.filter_cons, decide_not, ihe]

/-- On a store with duplicate-free keys, one `_store_result` call is: drop
the entries for `k`, append the new entry, evict down to the capacity. -/
theorem _store_result_eq (cap : Nat) (s : ResultStore) (k : String)
    (v : PredictionResult) (h : (s.map Prod.fst).Nodup) :
    _store_result cap s k v =
      (s.filter (fun p => p.1 ≠ k) ++ [(k, v)]).drop
        ((s.filter (fun p => p.1 ≠ k)).length + 1 - cap) := by
  rw [_store_result, odSet_moveToEnd s k v h, evictOldest_eq_drop]
  simp

/-- On a store whose keys avoid `k`, `_store_result` appends and evicts. -/
theorem _store_result_fresh (cap : Nat) (s : ResultStore) (k : String)
    (v : PredictionResult) (hn : (s.map Prod.fst).Nodup)
    (h : ∀ p ∈ s, p.1 ≠ k) :
    _store_result cap s k v = (s ++ [(k, v)]).drop (s.length + 1 - cap) := by
  rw [_store_result_eq cap s k v hn, filter_ne_of_fresh s k h]

/-- Folding a sequence of distinct-keyed puts over a within-capacity store
keeps exactly the most recent `cap` entries. -/
theorem putSeq_nodup (cap : Nat) :
    ∀ (ps : List (String × PredictionResult)) (store : ResultStore),
      store.length ≤ cap → (((store ++ ps).map Prod.fst).Nodup) →
      putSeq cap store ps = (store ++ ps).drop ((store ++ ps).length - cap) := by
  intro ps
  induction ps with
  | nil =>
    intro store hlen _
    have h0 : store.length - cap = 0 := by omega
    simp [putSeq, h0]
  | cons p ps ih =>
    intro store hlen hnd
    have hnd' : ((store ++ [p]).map Prod.fst ++ ps.map Prod.fst).Nodup := by
      simpa [List.append_assoc] using hnd
    have hstore_nd : (store.map Prod.fst).Nodup := by
      have : List.Sublist (store.map Prod.fst) ((store ++ p :: ps).map Prod.fst) :=
        ((store.sublist_append_left (p :: ps)).map Prod.fst)
      exact this.nodup hnd
    have hfresh : ∀ q ∈ store, q.1 ≠ p.1 := by
      intro q hq hqk
      have h2 : (store.map Prod.fst ++ (p.1 :: ps.map Prod.fst)).Nodup := by
        simpa using hnd
      have hdisj := (List.nodup_append.mp h2).2.2
      have hm1 : p.1 ∈ store.map Prod.fst := hqk ▸ List.mem_map_of_mem Prod.fst hq
      exact hdisj hm1 (by simp)
    have hstep : _store_result cap store p.1 p.2 =
        (store ++ [p]).drop (store.length + 1 - cap) :=
      _store_result_fresh cap store p.1 p.2 hstore_nd hfresh
    have hdle : store.length + 1 - cap ≤ (store ++ [p]).length := by
      simp only [List.length_append, List.length_cons, List.length_nil]
      omega
    have hs'len : ((store ++ [p]).drop (store.length + 1 - cap)).length ≤ cap := by
      rw [List.length_drop]; simp; omega
    have hs'nd :
        (((store ++ [p]).drop (store.length + 1 - cap) ++ ps).map Prod.fst).Nodup := by
      have hsub : List.Sublist
          (((store ++ [p]).drop (store.length + 1 - cap) ++ ps).map Prod.fst)
          (((store ++ [p]) ++ ps).map Prod.fst) := by
        refine List.Sublist.map Prod.fst ?_
        exact List.Sublist.append (List.drop_suffix _ _).sublist (List.Sublist.refl ps)
      refine hsub.nodup ?_
      simpa [List.append_assoc] using hnd
    have hrec := ih ((store ++ [p]).drop (store.length + 1 - cap)) hs'len hs'nd
    have hfold : putSeq cap store (p :: ps) =
        putSeq cap (_store_result cap store p.1 p.2) ps := rfl
    rw [hfold, hstep, hrec, ← List.drop_append_of_le_length hdle, List.drop_drop]
    have hlist : (store ++ [p]) ++ ps = store ++ p :: ps := by simp
    rw [hlist]
    congr 1
    simp only [List.length_drop, List.length_append, List.length_cons, List.length_nil]
    omega

/-! ## Claim theorems: the bounded cache (C2, C7, C8) and health (C9) -/

/-- C2: for any capacity N and any sequence of M > N put operations with
distinct keys, afterward the cache size equals N and the cache holds exactly
the N most-recently-written entries (the oldest-by-write-order entries having
been evicted). -/
theorem cache_holds_most_recent (cap : Nat) (ps : List (String × PredictionResult))
    (hnd : (ps.map Prod.fst).Nodup) (hM : cap < ps.length) :
    (putSeq cap [] ps).length = cap ∧
    putSeq cap [] ps = ps.drop (ps.length - cap) ∧
    (putSeq cap [] ps).map Prod.fst = (ps.map Prod.fst).drop (ps.length - cap) := by
  have h := putSeq_nodup cap ps [] (by simp) (by simpa using hnd)
  simp only [List.nil_append] at h
  refine ⟨?_, h, ?_⟩
  · rw [h, List.length_drop]
    omega
  · rw [h, List.map_drop]

/-- Witness for C2: capacity 2, three distinct writes; the two most recent
survive, in write order. -/
theorem cache_holds_most_recent_witness :
    ((([("a", sampleResult), ("b", sampleResultB), ("c", sampleResult)]).map
        Prod.fst).Nodup ∧ 2 < 3) ∧
    (putSeq 2 [] [("a", sampleResult), ("b", sampleResultB), ("c", sampleResult)]).length = 2 ∧
    (putSeq 2 [] [("a", sampleResult), ("b", sampleResultB), ("c", sampleResult)]).map
        Prod.fst = ["b", "c"] := by
  have h := cache_holds_most_recent 2
    [("a", sampleResult), ("b", sampleResultB), ("c", sampleResult)]
    (by simp) (by norm_num)
  exact ⟨⟨by simp, by norm_num⟩, h.1, by simpa using h.2.2⟩

/-- C7: after every cache mutation — inserting a new key or overwriting an
existing one — the store size never exceeds the capacity. -/
theorem cache_size_never_exceeds_capacity (cap : Nat) (store : ResultStore)
    (k : String) (v : PredictionResult) :
    (_store_result cap store k v).length ≤ cap := by
  unfold _store_result
  exact evictOldest_length_le cap _

/-- C8: `put(id, r)` then `get(id)` returns `r` unchanged; fetching an absent
identifier yields the pending placeholder, never an error; fetching a present
identifier yields the cached result. -/
theorem cache_put_get_spec (cap : Nat) (store : ResultStore) (k : String)
    (v : PredictionResult) (hcap : 1 ≤ cap)
    (hnd : (store.map Prod.fst).Nodup) :
    odGet (_store_result cap store k v) k = some v ∧
    (∀ id, odGet store id = none →
        get_prediction_result store id = .pendingFor id TaskStatus.pending) ∧
    (∀ id r, odGet store id = some r → get_prediction_result store id = .found r) := by
  refine ⟨?_, ?_, ?_⟩
  · rw [_store_result_eq cap store k v hnd]
    have hd : (store.filter (fun p => p.1 ≠ k)).length + 1 - cap ≤
        (store.filter (fun p => p.1 ≠ k)).length := by omega
    rw [List.drop_append_of_le_length hd]
    unfold odGet
    rw [List.find?_append]
    have hnone : ((store.filter (fun p => p.1 ≠ k)).drop
        ((store.filter (fun p => p.1 ≠ k)).length + 1 - cap)).find?
          (fun p => p.1 = k) = none := by
      refine List.find?_eq_none.mpr ?_
      intro p hp
      have hpF : p ∈ store.filter (fun p => p.1 ≠ k) := List.mem_of_mem_drop hp
      have hne := (List.mem_filter.mp hpF).2
      simp at hne ⊢
      exact hne
    rw [hnone]
    simp
  · intro id h
    unfold get_prediction_result
    rw [h]
  · intro id r h
    unfold get_prediction_result
    rw [h]

/-- Witness for C8: a put followed by a get on a one-entry store, and a get
of an absent identifier. -/
theorem cache_put_get_spec_witness :
    odGet (_store_result 2 [("x", sampleResult)] "y" sampleResultB) "y" =
      some sampleResultB ∧
    get_prediction_result [] "missing" = .pendingFor "missing" TaskStatus.pending ∧
    get_prediction_result [("x", sampleResult)] "x" = .found sampleResult := by
  refine ⟨(cache_put_get_spec 2 [("x", sampleResult)] "y" sampleResultB
    (by norm_num) (by simp)).1, ?_, ?_⟩
  · exact (cache_put_get_spec 2 [] "missing" sampleResult (by norm_num)
      (by simp)).2.1 "missing" rfl
  · exact (cache_put_get_spec 2 [("x", sampleResult)] "x" sampleResult
      (by norm_num) (by simp)).2.2 "x" sampleResult rfl

/-- C9: the health handler answers `kafka_connected = true` with status
healthy exactly when the producer handle is present, and
`kafka_connected = false` with status degraded otherwise. -/
theorem health_reports_producer (service version : String) (producer : Option Unit) :
    ((health_check service version producer).kafka_connected = true ↔
        producer.isSome = true) ∧
    (producer.isSome = true →
        health_check service version producer = ⟨service, "healthy", version, true⟩) ∧
    (producer.isSome = false →
        health_check service version producer = ⟨service, "degraded", version, false⟩) := by
  cases producer <;> simp [health_check]

/-- Witness for C9: with and without a producer handle. -/
theorem health_reports_producer_witness :
    health_check "gateway" "0.1.0" (some ()) = ⟨"gateway", "healthy", "0.1.0", true⟩ ∧
    health_check "gateway" "0.1.0" none = ⟨"gateway", "degraded", "0.1.0", false⟩ :=
  ⟨(health_reports_producer "gateway" "0.1.0" (some ())).2.1 rfl,
   (health_reports_producer "gateway" "0.1.0" none).2.2 rfl⟩

/-! ## Claim theorems: the worker and ingestor loops (C1, C3, C4, C10) -/

/-- The second component of `ingestLoop` has one trace per input message. -/
theorem ingestLoop_trace_length (cap : Nat) :
    ∀ (msgs : List ResultMsgOutcome) (store : ResultStore),
      (ingestLoop cap store msgs).2.length = msgs.length := by
  intro msgs
  induction msgs with
  | nil => intro store; rfl
  | cons m rest ih => intro store; simp [ingestLoop, ih]

/-- C1: a consumed request on which processing fails (decode or
classification) produces exactly this trace: one publish attempt of a
failed-status, sentinel-label, zero-score result to the results topic keyed
by the recovered identifier, then exactly one commit, regardless of whether
the error-result publish itself succeeds. -/
theorem worker_failure_commits_once (model_name : String) (m : RequestMsgOutcome)
    (hfail : (∃ e, m.decoded = .error e) ∨ (∃ e, m.predicted = .error e)) :
    processMessage model_name m =
      [.publishAttempt TOPIC_PREDICTION_RESULTS (recoveredId m)
          (errorResult model_name (recoveredId m)) m.errorPublishOk,
       .commit] ∧
    (errorResult model_name (recoveredId m)).status = TaskStatus.failed ∧
    (errorResult model_name (recoveredId m)).label = "ERROR" ∧
    (errorResult model_name (recoveredId m)).score = 0 ∧
    commitCount (processMessage model_name m) = 1 := by
  have htrace : processMessage model_name m =
      errorBranch model_name (recoveredId m) m.errorPublishOk := by
    cases hdec : m.decoded with
    | error e => simp [processMessage, recoveredId, hdec]
    | ok request =>
      cases hpred : m.predicted with
      | error e => simp [processMessage, recoveredId, hdec, hpred]
      | ok p =>
        exfalso
        rcases hfail with ⟨e, he⟩ | ⟨e, he⟩
        · rw [hdec] at he
          exact Except.noConfusion he
        · rw [hpred] at he
          exact Except.noConfusion he
  refine ⟨by rw [htrace]; rfl, rfl, rfl, rfl, ?_⟩
  rw [htrace]
  simp [errorBranch, commitCount, List.countP_cons]

/-- Witness for C1: a classification failure whose error-result publish also
fails still yields the error publish attempt followed by exactly one commit. -/
theorem worker_failure_commits_once_witness :
    processMessage "distilbert" msgClassifyFail =
      [.publishAttempt TOPIC_PREDICTION_RESULTS "req-1"
          (errorResult "distilbert" "req-1") false,
       .commit] ∧
    commitCount (processMessage "distilbert" msgClassifyFail) = 1 := by
  have h := worker_failure_commits_once "distilbert" msgClassifyFail
    (Or.inr ⟨"model raised", rfl⟩)
  exact ⟨h.1, h.2.2.2.2⟩

/-- C10: when decoding a request fails before the identifier is known, the
worker publishes the failed-status result under the literal placeholder
`"unknown"`, both as the result's `request_id` and as the partition key of
the publish. -/
theorem worker_unknown_placeholder (model_name : String) (m : RequestMsgOutcome)
    (hd : ∃ e, m.decoded = .error e) :
    processMessage model_name m =
      [.publishAttempt TOPIC_PREDICTION_RESULTS "unknown"
          (errorResult model_name "unknown") m.errorPublishOk,
       .commit] ∧
    (errorResult model_name "unknown").request_id = "unknown" ∧
    (errorResult model_name "unknown").status = TaskStatus.failed := by
  obtain ⟨e, he⟩ := hd
  refine ⟨?_, rfl, rfl⟩
  simp [processMessage, he, errorBranch]

/-- Witness for C10: a message with a decode failure. -/
theorem worker_unknown_placeholder_witness :
    processMessage "distilbert" msgDecodeFail =
      [.publishAttempt TOPIC_PREDICTION_RESULTS "unknown"
          (errorResult "distilbert" "unknown") true,
       .commit] :=
  (worker_unknown_placeholder "distilbert" msgDecodeFail ⟨"bad payload", rfl⟩).1

/-- C3: neither loop is terminated by a failing message: each loop yields one
per-message trace for every input message, and processing a message reduces
to its step followed by the loop on the remaining messages, whatever the
message's effect outcomes are. -/
theorem loops_contain_per_message_errors (model_name : String) (cap : Nat)
    (store : ResultStore) (m : RequestMsgOutcome) (msgs : List RequestMsgOutcome)
    (rm : ResultMsgOutcome) (rmsgs : List ResultMsgOutcome) :
    (runWorkerLoop model_name msgs).length = msgs.length ∧
    runWorkerLoop model_name (m :: msgs) =
      processMessage model_name m :: runWorkerLoop model_name msgs ∧
    (ingestLoop cap store rmsgs).2.length = rmsgs.length ∧
    ingestLoop cap store (rm :: rmsgs) =
      ((ingestLoop cap (ingestStep cap store rm).1 rmsgs).1,
       (ingestStep cap store rm).2 :: (ingestLoop cap (ingestStep cap store rm).1 rmsgs).2) := by
  exact ⟨by simp [runWorkerLoop], rfl, ingestLoop_trace_length cap rmsgs store, rfl⟩

/-- C4: the ingestor commits a result message's offset only after the cache
put succeeded; on decode or cache-update failure it skips the message without
committing, leaving the store unchanged. -/
theorem ingest_commit_only_after_put (cap : Nat) (store : ResultStore)
    (m : ResultMsgOutcome) :
    (∀ e, m.decoded = .error e → ingestStep cap store m = (store, [.skipped])) ∧
    (∀ r, m.decoded = .ok r → m.putOk = false →
        ingestStep cap store m = (store, [.skipped])) ∧
    (∀ r, m.decoded = .ok r → m.putOk = true →
        ingestStep cap store m =
          (_store_result cap store r.request_id r,
           [.stored r.request_id r, .commit])) ∧
    (IngestAction.commit ∈ (ingestStep cap store m).2 →
        ∃ r, m.decoded = .ok r ∧ m.putOk = true ∧
          (ingestStep cap store m).2 = [.stored r.request_id r, .commit]) := by
  refine ⟨?_, ?_, ?_, ?_⟩
  · intro e he
    simp [ingestStep, he]
  · intro r hr hput
    simp [ingestStep, hr, hput]
  · intro r hr hput
    simp [ingestStep, hr, hput]
  · intro hc
    cases hdec : m.decoded with
    | error e =>
      rw [show (ingestStep cap store m).2 = [.skipped] by simp [ingestStep, hdec]] at hc
      simp at hc
    | ok r =>
      cases hput : m.putOk with
      | false =>
        rw [show (ingestStep cap store m).2 = [.skipped] by
          simp [ingestStep, hdec, hput]] at hc
        simp at hc
      | true =>
        exact ⟨r, rfl, rfl, by simp [ingestStep, hdec, hput]⟩

/-- Witness for C4: a well-formed result message stores then commits; a
malformed one is skipped with no commit. -/
theorem ingest_commit_only_after_put_witness :
    ingestStep 10000 [] resultMsgOk =
      (_store_result 10000 [] sampleResult.request_id sampleResult,
       [.stored sampleResult.request_id sampleResult, .commit]) ∧
    ingestStep 10000 [] resultMsgBad = ([], [.skipped]) :=
  ⟨(ingest_commit_only_after_put 10000 [] resultMsgOk).2.2.1 sampleResult rfl rfl,
   (ingest_commit_only_after_put 10000 [] resultMsgBad).1 "bad payload" rfl⟩

/-! ## Claim theorems: connection bootstrap (C5) -/

/-- Running the retry loop through a block of attempts that all fail, none of
which is the final attempt, records those attempts and continues. -/
theorem connectLoop_error_prefix (outcome : Nat → Except ConnError Handle)
    (mr : Nat) :
    ∀ (n a : Nat) (l : List Nat),
      (∀ i, a ≤ i → i < a + n → ∃ e, outcome i = .error e) →
      (∀ i, a ≤ i → i < a + n → i ≠ mr) →
      connectLoop outcome mr (List.range' a n ++ l) =
        (List.range' a n ++ (connectLoop outcome mr l).1,
         (connectLoop outcome mr l).2) := by
  intro n
  induction n with
  | zero =>
    intro a l _ _
    simp [List.range']
  | succ n ih =>
    intro a l herr hne
    obtain ⟨e, he⟩ := herr a (le_refl a) (by omega)
    have hane : a ≠ mr := hne a (le_refl a) (by omega)
    rw [List.range'_succ, List.cons_append]
    simp only [connectLoop, he, if_neg hane]
    rw [ih (a + 1) l (fun i h1 h2 => herr i (by omega) (by omega))
      (fun i h1 h2 => hne i (by omega) (by omega))]
    simp

/-- A successful attempt at the head of the remaining attempts stops the loop
with the handle. -/
theorem connectLoop_ok_head (outcome : Nat → Except ConnError Handle)
    (mr a : Nat) (l : List Nat) (h : Handle) (hok : outcome a = .ok h) :
    connectLoop outcome mr (a :: l) = ([a], .ok h) := by
  simp [connectLoop, hok]

/-- A failing final attempt re-raises the connection error. -/
theorem connectLoop_final_error (outcome : Nat → Except ConnError Handle)
    (mr : Nat) (l : List Nat) (e : ConnError) (he : outcome mr = .error e) :
    connectLoop outcome mr (mr :: l) = ([mr], .error (.connError e)) := by
  simp [connectLoop, he]

/-- C5: for max_retries ≥ 1, a connect outcome failing on attempts 1..K with
K < max_retries and succeeding on attempt K+1 makes `create_producer` and
`create_consumer` return the handle after exactly the K+1 attempts 1..K+1;
failing on all of 1..max_retries makes them re-raise the connection error of
the final attempt to the caller. -/
theorem connection_bootstrap_retry (outcome : Nat → Except ConnError Handle)
    (mr : Nat) (hmr : 1 ≤ mr) :
    (∀ K h, K + 1 ≤ mr →
        (∀ i, 1 ≤ i → i ≤ K → ∃ e, outcome i = .error e) →
        outcome (K + 1) = .ok h →
        create_producer outcome mr = (List.range' 1 (K + 1), .ok h) ∧
        create_consumer outcome mr = (List.range' 1 (K + 1), .ok h) ∧
        (List.range' 1 (K + 1)).length = K + 1) ∧
    ((∀ i, 1 ≤ i → i ≤ mr → ∃ e, outcome i = .error e) →
        ∃ e, outcome mr = .error e ∧
          create_producer outcome mr = (List.range' 1 mr, .error (.connError e)) ∧
          create_consumer outcome mr = (List.range' 1 mr, .error (.connError e))) := by
  constructor
  · intro K h hK herr hok
    have hsplit : List.range' 1 K ++ List.range' (1 + K) (mr - K) = List.range' 1 mr := by
      have hap := List.range'_append 1 K (mr - K) 1
      simp only [one_mul] at hap
      rw [hap]
      congr 1
      omega
    have hmk : mr - K = (mr - K - 1) + 1 := by omega
    have hstep : List.range' (1 + K) (mr - K) =
        (1 + K) :: List.range' (1 + K + 1) (mr - K - 1) := by
      conv_lhs => rw [hmk]
      rw [List.range'_succ]
    have hok' : outcome (1 + K) = .ok h := by rwa [Nat.add_comm 1 K]
    have hloop : connectLoop outcome mr (List.range' 1 mr) =
        (List.range' 1 K ++ [1 + K], .ok h) := by
      rw [← hsplit,
        connectLoop_error_prefix outcome mr K 1 (List.range' (1 + K) (mr - K))
          (fun i h1 h2 => herr i h1 (by omega))
          (fun i h1 h2 => by omega),
        hstep,
        connectLoop_ok_head outcome mr (1 + K) _ h hok']
    have hjoin : List.range' 1 K ++ [1 + K] = List.range' 1 (K + 1) := by
      have hap := List.range'_append 1 K 1 1
      simp only [one_mul] at hap
      rw [Nat.add_comm K 1, ← hap, List.range'_one]
    refine ⟨?_, ?_, by simp⟩
    · unfold create_producer
      rw [hloop, hjoin]
    · unfold create_consumer
      rw [hloop, hjoin]
  · intro herr
    obtain ⟨e, he⟩ := herr mr hmr (le_refl mr)
    have hsplit : List.range' 1 (mr - 1) ++ List.range' (1 + (mr - 1)) 1 =
        List.range' 1 mr := by
      have hap := List.range'_append 1 (mr - 1) 1 1
      simp only [one_mul] at hap
      rw [hap]
      congr 1
      omega
    have hone : List.range' (1 + (mr - 1)) 1 = [mr] := by
      rw [List.range'_one]
      congr 1
      omega
    have hloop : connectLoop outcome mr (List.range' 1 mr) =
        (List.range' 1 (mr - 1) ++ [mr], .error (.connError e)) := by
      rw [← hsplit, hone,
        connectLoop_error_prefix outcome mr (mr - 1) 1 [mr]
          (fun i h1 h2 => herr i h1 (by omega))
          (fun i h1 h2 => by omega),
        connectLoop_final_error outcome mr [] e he]
    have hlist : List.range' 1 (mr - 1) ++ [mr] = List.range' 1 mr := by
      rw [← hsplit, hone]
    refine ⟨e, he, ?_, ?_⟩
    · unfold create_producer
      rw [hloop, hlist]
    · unfold create_consumer
      rw [hloop, hlist]

/-- Witness for C5: a connect outcome failing once then succeeding yields the
handle after exactly the attempts 1, 2; one failing three times out of
max_retries = 3 re-raises the connection error. -/
theorem connection_bootstrap_retry_witness :
    (create_producer outcomeFailThenOk 3 = ([1, 2], .ok ⟨7⟩) ∧
     create_consumer outcomeFailThenOk 3 = ([1, 2], .ok ⟨7⟩)) ∧
    (create_producer outcomeAlwaysFail 3 =
        ([1, 2, 3], .error (.connError ⟨"connection refused"⟩)) ∧
     create_consumer outcomeAlwaysFail 3 =
        ([1, 2, 3], .error (.connError ⟨"connection refused"⟩))) := by
  constructor
  · have h := (connection_bootstrap_retry outcomeFailThenOk 3 (by norm_num)).1 1 ⟨7⟩
      (by norm_num)
      (fun i h1 h2 => ⟨⟨"connection refused"⟩, by
        have : i = 1 := by omega
        subst this
        rfl⟩)
      rfl
    exact ⟨by simpa using h.1, by simpa using h.2.1⟩
  · have h := (connection_bootstrap_retry outcomeAlwaysFail 3 (by norm_num)).2
      (fun i h1 h2 => ⟨⟨"connection refused"⟩, rfl⟩)
    obtain ⟨e, he, h1, h2⟩ := h
    have hee : e = ⟨"connection refused"⟩ := by
      have : Except.error (ε := ConnError) (α := Handle) e =
          Except.error ⟨"connection refused"⟩ := he.symm.trans rfl
      exact (Except.error.injEq _ _).mp this.symm |>.symm ▸ rfl
    subst hee
    exact ⟨by simpa using h1, by simpa using h2⟩

/-! ## Claim theorems: the submit path (C6) -/

/-- Counterexample to C6 as stated: a submit call with in-range text (length
10) does not return an identifier when the producer is unavailable — the
handler fails with 503 ServiceUnavailable instead. -/
theorem submit_claim_counterexample :
    validText "valid text" = true ∧
    (submit_prediction false true "fresh-id" ⟨none, "valid text"⟩).1 =
      SubmitResponse.serviceUnavailable ∧
    isAccepted (submit_prediction false true "fresh-id" ⟨none, "valid text"⟩).1 =
      false := by
  refine ⟨by decide, ?_, ?_⟩ <;> rfl

/-- C6 (amended): an empty or over-long text fails validation with a client
error carrying no identifier and nothing is published; in-range text with the
producer available and the publish succeeding returns the identifier with
status pending; in-range text with the producer unavailable or the publish
failing surfaces ServiceUnavailable, again with no identifier. -/
theorem submit_spec (producerUp publishOk : Bool) (freshId : String)
    (inp : SubmitInput) :
    (validText inp.text = true ↔ 1 ≤ inp.text.length ∧ inp.text.length ≤ 5000) ∧
    (validText inp.text = false →
        submit_prediction producerUp publishOk freshId inp =
          (.validationError, [])) ∧
    (validText inp.text = true → producerUp = true → publishOk = true →
        submit_prediction producerUp publishOk freshId inp =
          (.accepted (inp.request_id.getD freshId) TaskStatus.pending,
           [{ topic := TOPIC_PREDICTION_REQUESTS
              key := inp.request_id.getD freshId
              value := { request_id := inp.request_id.getD freshId, text := inp.text }
              ok := true }])) ∧
    (validText inp.text = true → (producerUp = false ∨ publishOk = false) →
        (submit_prediction producerUp publishOk freshId inp).1 =
          SubmitResponse.serviceUnavailable ∧
        isAccepted (submit_prediction producerUp publishOk freshId inp).1 = false) := by
  refine ⟨by simp [validText], ?_, ?_, ?_⟩
  · intro hv
    simp [submit_prediction, parseRequest, hv]
  · intro hv hp hb
    subst hp
    subst hb
    simp [submit_prediction, parseRequest, hv]
  · intro hv hfail
    have hparse : parseRequest freshId inp =
        some { request_id := inp.request_id.getD freshId, text := inp.text } := by
      simp [parseRequest, hv]
    rcases hfail with hp | hb
    · subst hp
      simp [submit_prediction, hparse, isAccepted]
    · subst hb
      cases producerUp <;> simp [submit_prediction, hparse, isAccepted]

/-- Witness for C6 (amended): an in-range text with a healthy producer is
accepted as pending and published once; an empty text fails validation with
nothing published. -/
theorem submit_spec_witness :
    submit_prediction true true "fresh-id" ⟨none, "valid text"⟩ =
      (.accepted "fresh-id" TaskStatus.pending,
       [{ topic := TOPIC_PREDICTION_REQUESTS
          key := "fresh-id"
          value := { request_id := "fresh-id", text := "valid text" }
          ok := true }]) ∧
    submit_prediction true true "fresh-id2" ⟨none, ""⟩ = (.validationError, []) := by
  refine ⟨?_, ?_⟩
  · exact (submit_spec true true "fresh-id" ⟨none, "valid text"⟩).2.2.1
      (by decide) rfl rfl
  · exact (submit_spec true true "fresh-id2" ⟨none, ""⟩).2.1 (by decide)

end MlLearn
